import Mathlib

/-!
Shallow embedding of the RDFa execution-context module (pyRdfa/state.py) of the
pyrdfa3 repository, together with the parts of its dependencies that the
verified claims exercise:

* the string primitives of Python 2 that the module uses
  (str.strip, str.lower, str.split, substring search, lexicographic comparison);
* the relevant entry points of Python 2.7's urlparse standard-library module
  (urlsplit, urlparse, urlunsplit, urlunparse, urljoin), which state.py uses for
  all URI manipulation.  Functions that can raise in Python (urlsplit raises
  ValueError on a malformed IPv6 netloc, string indexing raises IndexError)
  are embedded in the Except monad; a Python `try/except` is embedded as a
  match on the Except value;
* the external collaborators of the module (the TermOrCurie prefix/term
  resolver, the diagnostic sink, the host-language policy tables).  The
  resolver is an external interface and is represented by the two function
  fields `curie_to_URI` and `term_to_URI` of the context; the diagnostic sink
  is represented by the list of diagnostics each operation returns.

Set-up facts recorded once, used throughout: diagnostics carry the formatted
argument of the message template and the node name that state.py passes to
`Options.add_warning`; the RDFLib URIRef and BNode values are represented by
the `RDFNode` type below.
-/

/-! ## Python string primitives -/

/-- Characters stripped by Python 2 `str.strip()` and used as separators by
`str.split()` with no argument: space, tab, newline, carriage return,
vertical tab, form feed. -/
def pyIsSpace (c : Char) : Bool :=
  c = ' ' || c = '\t' || c = '\n' || c = '\r' || c = '\x0b' || c = '\x0c'

/-- Python `str.strip()` on a character list: remove leading and trailing
whitespace. -/
def pystripL (l : List Char) : List Char :=
  ((l.dropWhile pyIsSpace).reverse.dropWhile pyIsSpace).reverse

/-- Python `str.strip()`. -/
def pystrip (s : String) : String := String.mk (pystripL s.data)

/-- Python `str.lower()` (the values the program lower-cases are ASCII). -/
def pylower (s : String) : String := String.mk (s.data.map Char.toLower)

/-- Python `str.split()` with no argument, on character lists: split on runs of
whitespace, never producing empty tokens. -/
def pysplitL (l : List Char) : List (List Char) :=
  match l with
  | [] => []
  | c :: cs =>
    if pyIsSpace c then pysplitL cs
    else (c :: cs.takeWhile (fun d => !pyIsSpace d)) ::
         pysplitL (cs.dropWhile (fun d => !pyIsSpace d))
termination_by l.length
decreasing_by
  all_goals
    have h : ∀ (m : List Char) (p : Char → Bool), (m.dropWhile p).length ≤ m.length := by
      intro m p
      induction m with
      | nil => simp
      | cons a as ih =>
        by_cases hp : p a
        · rw [List.dropWhile_cons_of_pos hp]; exact le_trans ih (by simp)
        · rw [List.dropWhile_cons_of_neg hp]
    simp only [List.length_cons]
    have := h cs (fun d => !pyIsSpace d)
    omega

/-- Python `str.split()` with no argument. -/
def pysplit (s : String) : List String := (pysplitL s.data).map String.mk

/-- Python `needle in hay` substring test. -/
def containsSub (hay needle : List Char) : Bool :=
  (List.range (hay.length + 1)).any (fun i => needle.isPrefixOf (hay.drop i))

/-- Python 2 `str < str`: lexicographic comparison, character by character. -/
def pyStrLt : List Char → List Char → Bool
  | [], [] => false
  | [], _ :: _ => true
  | _ :: _, [] => false
  | a :: as, b :: bs => if a < b then true else if b < a then false else pyStrLt as bs

/-- Python 2 `a >= b` on strings, i.e. `not (a < b)`. -/
def pyStrGe (a b : String) : Bool := !(pyStrLt a.data b.data)

/-! ## Python 2.7 urlparse module

state.py delegates all URI parsing and joining to Python 2.7's `urlparse`
standard library.  The definitions below embed the entry points it uses
(`urlsplit`, `urlparse`, `urlunsplit`, `urlunparse`, `urljoin`), following the
library source of the 2011/2012 era the repository targets.  `urlsplit` raises
ValueError on a netloc with an unmatched IPv6 bracket; this is the `.error`
case of the Except results. -/

/-- Characters allowed in a URI scheme by urlparse (`scheme_chars`). -/
def scheme_chars : List Char :=
  "abcdefghijklmnopqrstuvwxyzABCDEFGHIJKLMNOPQRSTUVWXYZ0123456789+-.".data

/-- urlparse's `uses_relative` list. -/
def uses_relative : List String :=
  ["ftp", "http", "gopher", "nntp", "imap", "wais", "file", "https", "shttp",
   "mms", "prospero", "rtsp", "rtspu", "", "sftp", "svn", "svn+ssh"]

/-- urlparse's `uses_netloc` list. -/
def uses_netloc : List String :=
  ["ftp", "http", "gopher", "nntp", "telnet", "imap", "wais", "file", "mms",
   "https", "shttp", "snews", "prospero", "rtsp", "rtspu", "rsync", "",
   "svn", "svn+ssh", "sftp", "nfs", "git", "git+ssh"]

/-- urlparse's `uses_params` list. -/
def uses_params : List String :=
  ["ftp", "hdl", "prospero", "http", "imap", "https", "shttp", "rtsp",
   "rtspu", "sip", "sips", "mms", "", "sftp"]

/-- Result of `urlsplit`: the 5-tuple (scheme, netloc, path, query, fragment).
As in Python, an absent component is the empty string. -/
structure SplitResult where
  scheme : String
  netloc : String
  path : String
  query : String
  fragment : String
deriving DecidableEq, Repr

/-- Result of `urlparse`: the 6-tuple with the params component split out of
the path. -/
structure ParseResult where
  scheme : String
  netloc : String
  path : String
  params : String
  query : String
  fragment : String
deriving DecidableEq, Repr

/-- The scheme-detection step of `urlsplit`: if the url has a `:` at position
`i > 0` and every character before it is a scheme character, the scheme is the
lower-cased text before the colon and the rest is the text after it.  (The
`url[:i] == 'http'` fast path of the library computes the same thing.) -/
def schemeSplit (l : List Char) : Option (List Char × List Char) :=
  match l.findIdx? (· = ':') with
  | none => none
  | some 0 => none
  | some i =>
    if (l.take i).all (fun c => c ∈ scheme_chars) then
      some ((l.take i).map Char.toLower, l.drop (i + 1))
    else none

/-- urlparse's `_splitnetloc` with the two leading slashes already removed:
the netloc extends to the first `/`, `?` or `#`. -/
def splitnetloc (l : List Char) : List Char × List Char :=
  match l.findIdx? (fun c => c = '/' || c = '?' || c = '#') with
  | none => (l, [])
  | some i => (l.take i, l.drop i)

/-- Python `s.split(c, 1)`: the text before the first occurrence of `c` and
the text after it (`c` must occur, as at urlsplit's call sites). -/
def splitFirst (l : List Char) (c : Char) : List Char × List Char :=
  match l.findIdx? (· = c) with
  | none => (l, [])
  | some i => (l.take i, l.drop (i + 1))

/-- urlparse.urlsplit with `allow_fragments=True`.  The second argument is the
default scheme, used when no scheme is detected in the url.  Returns `.error`
where the library raises `ValueError` (unmatched IPv6 bracket in the netloc). -/
def pyUrlsplitE (url scheme : String) : Except Unit SplitResult :=
  let p := match schemeSplit url.data with
    | some (sc, r) => (sc, r)
    | none => (scheme.data, url.data)
  let sch := p.1
  let rest := p.2
  let q := if rest.take 2 = ['/', '/'] then splitnetloc (rest.drop 2) else ([], rest)
  let netloc := q.1
  let rest2 := q.2
  if ('[' ∈ netloc ∧ ']' ∉ netloc) ∨ (']' ∈ netloc ∧ '[' ∉ netloc) then .error ()
  else
    let r := if '#' ∈ rest2 then splitFirst rest2 '#' else (rest2, [])
    let s := if '?' ∈ r.1 then splitFirst r.1 '?' else (r.1, [])
    .ok ⟨String.mk sch, String.mk netloc, String.mk s.1, String.mk s.2, String.mk r.2⟩

/-- Python `l.rfind(c)`: index of the last occurrence. -/
def rfindChar (l : List Char) (c : Char) : Option Nat :=
  match l.reverse.findIdx? (· = c) with
  | none => none
  | some j => some (l.length - 1 - j)

/-- Python `l.find(c, start)`: index of the first occurrence at or after
`start`. -/
def findFrom (l : List Char) (c : Char) (start : Nat) : Option Nat :=
  match (l.drop start).findIdx? (· = c) with
  | none => none
  | some j => some (start + j)

/-- urlparse's `_splitparams`.  The final branch mirrors the library's
behaviour with `find` returning -1 (`url[:-1], url[0:]`); it is unreachable
because the caller checks that `;` occurs in the url. -/
def splitparams_ (url : List Char) : List Char × List Char :=
  match rfindChar url '/' with
  | some s =>
    match findFrom url ';' s with
    | none => (url, [])
    | some i => (url.take i, url.drop (i + 1))
  | none =>
    match url.findIdx? (· = ';') with
    | some i => (url.take i, url.drop (i + 1))
    | none => (url.dropLast, url)

/-- urlparse.urlparse: urlsplit plus the params component, split out of the
path for schemes in `uses_params`. -/
def pyUrlparseE (url scheme : String) : Except Unit ParseResult :=
  match pyUrlsplitE url scheme with
  | .error e => .error e
  | .ok t =>
    if t.scheme ∈ uses_params ∧ ';' ∈ t.path.data then
      let pr := splitparams_ t.path.data
      .ok ⟨t.scheme, t.netloc, String.mk pr.1, String.mk pr.2, t.query, t.fragment⟩
    else .ok ⟨t.scheme, t.netloc, t.path, "", t.query, t.fragment⟩

/-- urlparse.urlunsplit. -/
def pyUrlunsplit (t : SplitResult) : String :=
  let url := t.path
  let url :=
    if t.netloc ≠ "" ∨ url.data.take 2 = ['/', '/'] then
      "//" ++ t.netloc ++ (if url ≠ "" ∧ url.data.take 1 ≠ ['/'] then "/" ++ url else url)
    else url
  let url := if t.scheme ≠ "" then t.scheme ++ ":" ++ url else url
  let url := if t.query ≠ "" then url ++ "?" ++ t.query else url
  if t.fragment ≠ "" then url ++ "#" ++ t.fragment else url

/-- urlparse.urlunparse. -/
def pyUrlunparse (t : ParseResult) : String :=
  let url := if t.params ≠ "" then t.path ++ ";" ++ t.params else t.path
  pyUrlunsplit ⟨t.scheme, t.netloc, url, t.query, t.fragment⟩

/-- Python `s.split(c)` for a one-character separator, keeping empty pieces
(`"/a/".split('/') == ['', 'a', '']`). -/
def splitOnChar (c : Char) : List Char → List (List Char)
  | [] => [[]]
  | d :: rest =>
    if d = c then [] :: splitOnChar c rest
    else
      match splitOnChar c rest with
      | t :: ts => (d :: t) :: ts
      | [] => [[d]]

/-- Python `'/'.join(segments)`. -/
def joinSlash (segs : List String) : String :=
  String.mk (List.intercalate ['/'] (segs.map String.data))

/-- One pass of urljoin's `..`-elimination loop: find the first index `i` with
`1 <= i < len - 1` such that `segments[i] = ".."` and `segments[i-1]` is
neither empty nor `".."`, and delete elements `i-1` and `i`.  `none` when no
such index exists (the loop's `else: break`). -/
def dotdotScanGo : Nat → List String → Option (List String)
  | fuel + 1, a :: b :: c :: rest =>
    if b = ".." ∧ a ≠ "" ∧ a ≠ ".." then some (c :: rest)
    else
      match dotdotScanGo fuel (b :: c :: rest) with
      | some l => some (a :: l)
      | none => none
  | _, _ => none

/-- The scan with enough fuel for the whole list (the fuel only makes the
recursion structural: each step removes one leading element, so the length is
always sufficient). -/
def dotdotScan (l : List String) : Option (List String) :=
  dotdotScanGo l.length l

/-- urljoin's `while 1:` loop around the scan.  Each successful scan removes
two elements, so `segments.length` passes of fuel always suffice; the fuel
argument only makes the recursion structural. -/
def dotdotLoop : Nat → List String → List String
  | 0, l => l
  | fuel + 1, l =>
    match dotdotScan l with
    | some l2 => dotdotLoop fuel l2
    | none => l

/-- urlparse.urljoin with `allow_fragments=True`, following the Python 2.7
library source (the RFC 1808 style algorithm, including its same-scheme
relative-reference behaviour). -/
def pyUrljoinE (base url : String) : Except Unit String :=
  if base = "" then .ok url
  else if url = "" then .ok base
  else
    match pyUrlparseE base "" with
    | .error e => .error e
    | .ok b =>
      match pyUrlparseE url b.scheme with
      | .error e => .error e
      | .ok u =>
        if u.scheme ≠ b.scheme ∨ u.scheme ∉ uses_relative then .ok url
        else if u.scheme ∈ uses_netloc ∧ u.netloc ≠ "" then
          .ok (pyUrlunparse ⟨u.scheme, u.netloc, u.path, u.params, u.query, u.fragment⟩)
        else
          let netloc := if u.scheme ∈ uses_netloc then b.netloc else u.netloc
          if u.path.data.take 1 = ['/'] then
            .ok (pyUrlunparse ⟨u.scheme, netloc, u.path, u.params, u.query, u.fragment⟩)
          else if u.path = "" ∧ u.params = "" then
            let query := if u.query = "" then b.query else u.query
            .ok (pyUrlunparse ⟨u.scheme, netloc, b.path, b.params, query, u.fragment⟩)
          else
            let segments := ((splitOnChar '/' b.path.data).map String.mk).dropLast ++
              (splitOnChar '/' u.path.data).map String.mk
            let segments :=
              if segments.getLast? = some "." then segments.dropLast ++ [""] else segments
            let segments := segments.filter (fun s => s ≠ ".")
            let segments := dotdotLoop segments.length segments
            let segments :=
              if segments = ["", ".."] then ["", ""]
              else if 2 ≤ segments.length ∧ segments.getLast? = some ".." then
                segments.dropLast.dropLast ++ [""]
              else segments
            .ok (pyUrlunparse
              ⟨u.scheme, netloc, joinSlash segments, u.params, u.query, u.fragment⟩)

/-! ## RDF values, diagnostics, host-language policy, node view -/

/-- An RDFLib resource value produced by resolution: a URI reference (the
wrapped string) or a blank node (its identifier).  `URIRef` and `BNode` are
Python string subclasses; their truthiness is the non-emptiness of the
string. -/
inductive RDFNode where
  | uri (s : String)
  | bnode (id : String)
deriving DecidableEq, Repr

/-- Python truthiness of an optional resolver result (`if retval :` /
`if not retval :` in state.py): `None` and empty URIRef/BNode strings are
falsy. -/
def isTruthy : Option RDFNode → Bool
  | none => false
  | some (.uri s) => s ≠ ""
  | some (.bnode b) => b ≠ ""

/-- A diagnostic passed to `Options.add_warning`.  The constructors are the
message templates state.py imports from the package root (`err_lang`,
`err_URI_scheme`, ...); each carries the argument substituted into the
template and the node name passed as the `node` keyword.  The templates'
English text lives outside src/ and is irrelevant to the claims. -/
inductive Diag where
  | err_lang (xmllang lang nodeName : String)
  | err_URI_scheme (val nodeName : String)
  | err_illegal_safe_CURIE (val nodeName : String)
  | err_no_CURIE_in_safe_CURIE (val nodeName : String)
  | err_undefined_terms (val nodeName : String)
  | err_non_legal_CURIE_ref (val nodeName : String)
  | err_undefined_CURIE (val nodeName : String)
deriving DecidableEq, Repr

/-- The warning class state.py attaches to each diagnostic (second positional
argument of `add_warning`, absent for the two generic warnings), as the class
name string. -/
def Diag.warningClass : Diag → String
  | .err_lang _ _ _ => ""
  | .err_URI_scheme _ _ => ""
  | .err_illegal_safe_CURIE _ _ => "UnresolvablePrefix"
  | .err_no_CURIE_in_safe_CURIE _ _ => "UnresolvablePrefix"
  | .err_undefined_terms _ _ => "UnresolvableTerm"
  | .err_non_legal_CURIE_ref _ _ => "UnresolvablePrefix"
  | .err_undefined_CURIE _ _ => "UnresolvablePrefix"

/-- Modelled from the spec: the known-schemes allow-list (`uri_schemes`,
defined in the package root pyRdfa/__init__.py, which is not under src/).
The spec describes it as a static allow-list of registered URI schemes used
only for the "unusual scheme" warning; the embedding lists common registered
schemes.  The claims depend on it only through membership of "http" and
non-membership of "undefined". -/
def uri_schemes : List String :=
  ["http", "https", "ftp", "file", "mailto", "urn", "tel", "gopher", "news",
   "nntp", "telnet", "wais", "ldap", "data", "ftps", "sip", "sips", "ws", "wss"]

/-- Host languages recognized by the processor (pyRdfa/host/__init__.py).
The `html` member is Modelled from the spec: state.py (2011, v1.4) refers to
`HostLanguage.html` for the plain-HTML host language, while the host module
snapshot (2012, v1.11) has already renamed it; the spec's host-language
enumeration includes the HTML variant with dual language attributes. -/
inductive HostLanguage where
  | rdfa_core
  | xhtml
  | xhtml5
  | html5
  | atom
  | svg
  | html
deriving DecidableEq, Repr

/-- Host languages accepting `@xml:base` (pyRdfa/host/__init__.py). -/
def accept_xml_base : List HostLanguage :=
  [HostLanguage.rdfa_core, HostLanguage.atom, HostLanguage.svg]

/-- Host languages accepting `@xml:lang` (pyRdfa/host/__init__.py). -/
def accept_xml_lang : List HostLanguage :=
  [HostLanguage.rdfa_core, HostLanguage.atom, HostLanguage.svg]

/-- The slice of the Options object that the embedded code reads.  Warnings
(`Options.add_warning`) are modelled as the diagnostic lists the operations
return; the processor-graph machinery behind them is external to src/. -/
structure Options where
  host_language : HostLanguage
deriving DecidableEq, Repr

/-- Modelled from the spec: the ambient default Options instance created when
`__init__` receives `options=None` (the spec calls it the implicit fallback to
a shared default-options instance; its exact host language is external to
src/ and exercised by no claim). -/
def defaultOptions : Options := ⟨HostLanguage.xhtml⟩

/-- Modelled from the spec: `rdfa_current_version` from the package root (the
default version tag when none is forced and the root carries no version
declaration); the spec's version tags are "1.0" and "1.1", the current one
being "1.1". -/
def rdfa_current_version : String := "1.1"

/-- The DOM node view the context reads: node name, attributes, children. -/
inductive Node where
  | mk (nodeName : String) (attrs : List (String × String)) (children : List Node)

/-- The tag name of a node. -/
def Node.nodeName : Node → String
  | .mk n _ _ => n

/-- The attribute list of a node. -/
def Node.attrs : Node → List (String × String)
  | .mk _ a _ => a

/-- The child list of a node. -/
def Node.children : Node → List Node
  | .mk _ _ c => c

/-- DOM `hasAttribute`. -/
def Node.hasAttribute (n : Node) (a : String) : Bool :=
  (n.attrs.lookup a).isSome

/-- DOM `getAttribute` (empty string when absent; state.py always guards with
`hasAttribute`). -/
def Node.getAttribute (n : Node) (a : String) : String :=
  (n.attrs.lookup a).getD ""

/-- DOM `getElementsByTagName` over a list of sibling subtrees, in document
(pre-)order. -/
def gebtnList (tag : String) : List Node → List Node
  | [] => []
  | Node.mk nm at2 cs :: rest =>
    (if nm = tag then [Node.mk nm at2 cs] else []) ++ gebtnList tag cs ++ gebtnList tag rest

/-- DOM `getElementsByTagName`: the descendants of `n` with tag `tag`, in
document order (the node itself is not included). -/
def Node.getElementsByTagName (n : Node) (tag : String) : List Node :=
  gebtnList tag n.children

/-! ## ExecutionContext: state and construction (state.py) -/

/-- The parser's execution context (state.py `ExecutionContext`): the state at
a specific node.  The two function fields stand for the external TermOrCurie
prefix/term resolver instance (`self.term_or_curie`), which the spec treats as
an interface: `curie_to_URI` is its `CURIE_to_URI` method and `term_to_URI`
its `term_to_URI` method.  `parsedBase` (line 201 of state.py, the stored
`urlsplit(self.base)`) is recomputed from `base` where used; the constructor
performs the same parse, so a constructed context always has a parseable
base.  The list-mapping structure is carried by reference in Python and is
exercised by no claim, so it is not represented here. -/
structure ExecutionContext where
  node : Node
  rdfa_version : String
  base : String
  options : Options
  lang : Option String
  defaultNS : Option String
  curie_to_URI : String → Option RDFNode
  term_to_URI : String → Option RDFNode

/-- The `remove_frag_id` helper of `ExecutionContext.__init__`: re-serialize
the URI with the fragment replaced by the empty string; any parse error is
swallowed and the input returned unchanged (the bare `except`). -/
def remove_frag_id (uri : String) : String :=
  match pyUrlparseE uri "" with
  | .error _ => uri
  | .ok t => pyUrlunparse ⟨t.scheme, t.netloc, t.path, t.params, t.query, ""⟩

/-- `ExecutionContext.__init__` (state.py lines 92-259).  Arguments mirror the
Python signature: current node, inherited state, base override, options,
forced version; the `graph` argument is dropped (used only for the
"beautifying" prefix bindings, which touch the external graph sink and emit no
diagnostic).  The two resolver functions stand for the externally constructed
`TermOrCurie(self, graph, inherited_state)` instance.  Returns the context and
the diagnostics emitted during construction, or `.error` where Python would
raise (parsing `self.base` at line 201). -/
def ExecutionContext.mk_ (node : Node) (inherited_state : Option ExecutionContext)
    (base : String) (options : Option Options) (rdfa_version : Option String)
    (curie_to_URI term_to_URI : String → Option RDFNode) :
    Except Unit (ExecutionContext × List Diag) :=
  let vbo : String × String × Options :=
    match inherited_state with
    | some p =>
      -- inherited branch: version, base and options come from the parent;
      -- @xml:base may override the base for the host languages accepting it
      let b :=
        if p.options.host_language ∈ accept_xml_base ∧ node.hasAttribute "xml:base" then
          remove_frag_id (node.getAttribute "xml:base")
        else p.base
      (p.rdfa_version, b, p.options)
    | none =>
      -- top-level branch
      let ver :=
        match rdfa_version with
        | some v => v
        | none =>
          if node.hasAttribute "version" then
            let tv := node.getAttribute "version"
            if containsSub tv.data "RDFa 1.0".data then "1.0"
            else if containsSub tv.data "RDFa 1.1".data then "1.1"
            else rdfa_current_version
          else rdfa_current_version
      let opts := options.getD defaultOptions
      let b0 :=
        if opts.host_language ∈ [HostLanguage.xhtml, HostLanguage.html] then
          -- the <base> element lookup; the loop keeps the last base@href found
          (node.getElementsByTagName "base").foldl
            (fun acc el =>
              if el.hasAttribute "href" then remove_frag_id (el.getAttribute "href") else acc)
            ""
        else if opts.host_language ∈ accept_xml_base ∧ node.hasAttribute "xml:base" then
          remove_frag_id (node.getAttribute "xml:base")
        else ""
      -- if no local setting for base occurs, the input argument has it
      let b := if b0 = "" then base else b0
      (ver, b, opts)
  let ver := vbo.1
  let bas := vbo.2.1
  let opts := vbo.2.2
  -- line 201: self.parsedBase = urlparse.urlsplit(self.base)
  match pyUrlsplitE bas "" with
  | .error e => .error e
  | .ok _ =>
    let inhLang : Option String :=
      match inherited_state with
      | some p => p.lang
      | none => none
    let langAndDiags : Option String × List Diag :=
      if opts.host_language ∈ [HostLanguage.xhtml, HostLanguage.html] then
        -- we may have lang and xml:lang
        let lang_a :=
          if node.hasAttribute "lang" then some (pylower (node.getAttribute "lang")) else none
        let xmllang :=
          if node.hasAttribute "xml:lang" then some (pylower (node.getAttribute "xml:lang"))
          else none
        let l1 :=
          match xmllang with
          | some x => if x.length ≠ 0 then some x else none
          | none =>
            match lang_a with
            | some la => if la.length ≠ 0 then some la else none
            | none => inhLang
        let w :=
          match lang_a, xmllang with
          | some la, some x =>
            if la ≠ x then [Diag.err_lang x la node.nodeName] else []
          | _, _ => []
        (l1, w)
      else
        -- xml:lang is the only possible option
        if opts.host_language ∈ accept_xml_lang ∧ node.hasAttribute "xml:lang" then
          let l := pylower (node.getAttribute "xml:lang")
          (if l.length = 0 then none else some l, [])
        else (inhLang, [])
    let defaultNS :=
      if node.hasAttribute "xmlns" then some (node.getAttribute "xmlns")
      else
        match inherited_state with
        | some p => p.defaultNS
        | none => none
    .ok (⟨node, ver, bas, opts, langAndDiags.1, defaultNS, curie_to_URI, term_to_URI⟩,
         langAndDiags.2)

/-! ## URI / CURIE / term resolution (state.py lines 261-452) -/

/-- The `create_URIRef` helper of `ExecutionContext._URI` (lines 269-280):
strip the candidate, and when `check` is set warn if its scheme is not on the
allow-list; the URIRef is created regardless.  Parsing can raise, hence the
Except result. -/
def create_URIRef (ctx : ExecutionContext) (uri : String) (check : Bool) :
    Except Unit (RDFNode × List Diag) :=
  let val := pystrip uri
  if check then
    match pyUrlsplitE val "" with
    | .error e => .error e
    | .ok t =>
      if t.scheme ∈ uri_schemes then .ok (.uri val, [])
      else .ok (.uri val, [Diag.err_URI_scheme (pystrip val) ctx.node.nodeName])
  else .ok (.uri val, [])

/-- The `join` helper of `ExecutionContext._URI` (lines 282-299): urljoin, then
restore a trailing character of `v` that the join swallowed.  The comparison
`v[-1] != joined[-1]` and the `create_URIRef` call sit inside a bare
`try/except` whose handler is `create_URIRef(joined, check)`: an IndexError
(empty string) or a ValueError from the first `create_URIRef` falls back to
the handler; an error raised by the handler itself propagates.  The `urljoin`
call is outside the `try`, so its errors propagate. -/
def join (ctx : ExecutionContext) (base v : String) (check : Bool) :
    Except Unit (RDFNode × List Diag) :=
  match pyUrljoinE base v with
  | .error e => .error e
  | .ok joined =>
    match v.data.getLast?, joined.data.getLast? with
    | some lv, some lj =>
      if lv ≠ lj then
        match create_URIRef ctx (joined ++ String.mk [lv]) check with
        | .ok r => .ok r
        | .error _ => create_URIRef ctx joined check
      else create_URIRef ctx joined check
    | _, _ => create_URIRef ctx joined check

/-- `ExecutionContext._URI` (lines 261-326): resolution of a pure URI value.
The empty value maps to the stored base as-is (line 303); otherwise the value
is joined against the base, the branch depending on whether the parsed base
has a scheme. -/
def ExecutionContext.URIm (ctx : ExecutionContext) (val : String) :
    Except Unit (RDFNode × List Diag) :=
  if val = "" then .ok (.uri ctx.base, [])
  else
    match pyUrlsplitE ctx.base "" with
    | .error e => .error e
    | .ok parsedBase =>
      if parsedBase.scheme = "" then
        -- base is, in fact, a local file name
        match pyUrlsplitE val "" with
        | .error e => .error e
        | .ok t =>
          if t.scheme = "" then join ctx ctx.base val false
          else create_URIRef ctx val true
      else join ctx ctx.base val true

/-- The common tail of `ExecutionContext._CURIEorURI` after the safe-CURIE
bracket handling (lines 349-373): the version branch on CURIE resolution and
its fallbacks. -/
def ExecutionContext.CURIEorURIresolve (ctx : ExecutionContext) (val : String)
    (safe_curie : Bool) : Except Unit (Option RDFNode × List Diag) :=
  if pyStrGe ctx.rdfa_version "1.1" then
    match ctx.curie_to_URI val with
    | none =>
      if safe_curie then
        .ok (none, [Diag.err_no_CURIE_in_safe_CURIE val ctx.node.nodeName])
      else
        match ctx.URIm val with
        | .error e => .error e
        | .ok r => .ok (some r.1, r.2)
    | some retval =>
      -- filter out a URIRef holding a relative URI (line 363)
      match retval with
      | .bnode b => .ok (some (.bnode b), [])
      | .uri s =>
        match pyUrlsplitE s "" with
        | .error e => .error e
        | .ok t =>
          if t.scheme = "" then .ok (some (.uri (ctx.base ++ s)), [])
          else .ok (some (.uri s), [])
  else
    -- in 1.0 mode a CURIE can be considered only in case of a safe CURIE
    if safe_curie then .ok (ctx.curie_to_URI val, [])
    else
      match ctx.URIm val with
      | .error e => .error e
      | .ok r => .ok (some r.1, r.2)

/-- `ExecutionContext._CURIEorURI` (lines 328-374): resolution of a value that
may be a (safe or not safe) CURIE, falling back on a URI. -/
def ExecutionContext.CURIEorURIm (ctx : ExecutionContext) (val : String) :
    Except Unit (Option RDFNode × List Diag) :=
  if val = "" then .ok (some (.uri ctx.base), [])
  else if val.data.head? = some '[' then
    if val.data.getLast? ≠ some ']' then
      -- an incomplete safe CURIE
      .ok (none, [Diag.err_illegal_safe_CURIE val ctx.node.nodeName])
    else ctx.CURIEorURIresolve (String.mk val.data.dropLast.tail) true
  else ctx.CURIEorURIresolve val false

/-- Modelled from the spec: the `ncname` regular expression of the termorcurie
module (not under src/), matching the lexical shape of a single unprefixed
name token: a letter or underscore followed by letters, digits, `-`, `_`,
`.`. -/
def ncname_match (s : String) : Bool :=
  match s.data with
  | [] => false
  | c :: cs =>
    (c.isAlpha || c = '_') &&
    cs.all (fun d => d.isAlpha || d.isDigit || d = '-' || d = '_' || d = '.')

/-- `ExecutionContext._TERMorCURIEorAbsURI` (lines 376-417): term resolution
for name tokens, then CURIE resolution, then the version-dependent absolute
URI fallback. -/
def ExecutionContext.TERMorCURIEorAbsURIm (ctx : ExecutionContext) (val : String) :
    Except Unit (Option RDFNode × List Diag) :=
  if val = "" then .ok (none, [])
  else if ncname_match val then
    -- this is a term, must be handled as such
    let retval := ctx.term_to_URI val
    if isTruthy retval then .ok (retval, [])
    else .ok (none, [Diag.err_undefined_terms val ctx.node.nodeName])
  else
    -- try a CURIE
    let retval := ctx.curie_to_URI val
    if isTruthy retval then .ok (retval, [])
    else if pyStrGe ctx.rdfa_version "1.1" then
      match pyUrlsplitE val "" with
      | .error e => .error e
      | .ok t =>
        if t.scheme = "" then
          -- there should be no relative URIs here
          .ok (none, [Diag.err_non_legal_CURIE_ref val ctx.node.nodeName])
        else if t.scheme ∉ uri_schemes then
          .ok (some (.uri val), [Diag.err_URI_scheme (pystrip val) ctx.node.nodeName])
        else .ok (some (.uri val), [])
    else
      -- rdfa 1.0 case
      .ok (none, [Diag.err_undefined_CURIE (pystrip val) ctx.node.nodeName])

/-- The class variable `ExecutionContext._list`: attributes whose values are
whitespace-separated lists. -/
def ExecutionContext.listAttrs : List String := ["rel", "rev", "property", "typeof"]

/-- The three resolution methods an attribute can be mapped to. -/
inductive ResolverKind where
  | kURI
  | kCURIEorURI
  | kTERMorCURIEorAbsURI
deriving DecidableEq, Repr

/-- The class variable `ExecutionContext._resource_type`: the static mapping
from attribute name to resolution method (initialized lazily in `__init__`;
its content never changes after the first construction). -/
def resource_type_ (attr : String) : Option ResolverKind :=
  if attr = "href" ∨ attr = "src" ∨ attr = "vocab" then some .kURI
  else if attr = "about" ∨ attr = "resource" then some .kCURIEorURI
  else if attr = "rel" ∨ attr = "rev" ∨ attr = "datatype" ∨ attr = "typeof" ∨
          attr = "property" then some .kTERMorCURIEorAbsURI
  else none

/-- Dispatch a resolution kind to its method.  The `_URI` result (always a
URIRef in Python, never `None`) is wrapped in `some`. -/
def ResolverKind.apply (k : ResolverKind) (ctx : ExecutionContext) (v : String) :
    Except Unit (Option RDFNode × List Diag) :=
  match k with
  | .kURI =>
    match ctx.URIm v with
    | .error e => .error e
    | .ok r => .ok (some r.1, r.2)
  | .kCURIEorURI => ctx.CURIEorURIm v
  | .kTERMorCURIEorAbsURI => ctx.TERMorCURIEorAbsURIm v

/-- The resolution kind `getURI` ends up using for an attribute: the table
entry, with `_URI` as the fallback of the `try/except` around the table
lookup. -/
def kindOf (attr : String) : ResolverKind :=
  match resource_type_ attr with
  | some k => k
  | none => .kURI

/-- The list comprehension of `getURI`'s list branch: resolve each token (each
stripped again, `v.strip()`), left to right; an exception raised by any token
aborts the whole comprehension. -/
def resolveTokens (ctx : ExecutionContext) (k : ResolverKind) :
    List String → Except Unit (List (Option RDFNode × List Diag))
  | [] => .ok []
  | v :: rest =>
    match k.apply ctx (pystrip v) with
    | .error e => .error e
    | .ok p =>
      match resolveTokens ctx k rest with
      | .error e => .error e
      | .ok ps => .ok (p :: ps)

/-- The result of `getURI`: a single optional reference or a list of
references, depending on the attribute. -/
inductive URIres where
  | single (r : Option RDFNode)
  | multiple (rs : List RDFNode)
deriving DecidableEq, Repr

/-- `ExecutionContext.getURI` (lines 421-452): dispatch an attribute to its
resolution method per the static table; a missing attribute yields `[]`
for list attributes and `None` for scalar ones; list attributes split the
stripped value on whitespace, resolve each token and drop the `None` results
(the comprehension's `if v != None` guard over the split tokens is always
true and is dropped).  Diagnostics are those the per-token calls emitted, in
call order. -/
def ExecutionContext.getURI (ctx : ExecutionContext) (attr : String) :
    Except Unit (URIres × List Diag) :=
  if ctx.node.hasAttribute attr = false then
    if attr ∈ ExecutionContext.listAttrs then .ok (.multiple [], [])
    else .ok (.single none, [])
  else
    let val := ctx.node.getAttribute attr
    let func := kindOf attr
    if attr ∈ ExecutionContext.listAttrs then
      match resolveTokens ctx func (pysplit (pystrip val)) with
      | .error e => .error e
      | .ok prs =>
        .ok (.multiple ((prs.map Prod.fst).reduceOption), (prs.map Prod.snd).flatten)
    else
      match func.apply ctx (pystrip val) with
      | .error e => .error e
      | .ok r => .ok (.single r.1, r.2)

/-! ## Specification-side definition for the list-resolution refinement claim -/

/-- Specification-side token resolution, written from the spec's words for the
refinement claim (C9): each whitespace-separated token is resolved
independently (the token itself, with no further processing), left to
right. -/
def resolveTokensSpec (ctx : ExecutionContext) (k : ResolverKind) :
    List String → Except Unit (List (Option RDFNode × List Diag))
  | [] => .ok []
  | v :: rest =>
    match k.apply ctx v with
    | .error e => .error e
    | .ok p =>
      match resolveTokensSpec ctx k rest with
      | .error e => .error e
      | .ok ps => .ok (p :: ps)

/-- Specification-side list resolution, written from the spec's words for the
refinement claim (C9): split the attribute value on whitespace, resolve each
token independently, and discard exactly the tokens that resolved to absence,
preserving order and duplicates; the diagnostics are those of the token
resolutions in order. -/
def specListResolve (ctx : ExecutionContext) (k : ResolverKind) (val : String) :
    Except Unit (List RDFNode × List Diag) :=
  match resolveTokensSpec ctx k (pysplit val) with
  | .error e => .error e
  | .ok prs => .ok ((prs.map Prod.fst).reduceOption, (prs.map Prod.snd).flatten)

/-! ## Helper lemmas on the string primitives -/

theorem dropWhile_append_all {α : Type} {p : α → Bool} {w : List α}
    (h : ∀ c ∈ w, p c = true) (x : List α) :
    (w ++ x).dropWhile p = x.dropWhile p := by
  induction w with
  | nil => rfl
  | cons a as ih =>
    have ha : p a = true := h a (by simp)
    rw [List.cons_append, List.dropWhile_cons_of_pos ha]
    exact ih (fun c hc => h c (by simp [hc]))

theorem dropWhile_eq_nil_all {α : Type} {p : α → Bool} {w : List α}
    (h : ∀ c ∈ w, p c = true) : w.dropWhile p = [] := by
  simpa using dropWhile_append_all h []

theorem dropWhile_append_stop {α : Type} {p : α → Bool} {v : List α}
    (h : v.dropWhile p ≠ []) (w : List α) :
    (v ++ w).dropWhile p = v.dropWhile p ++ w := by
  induction v with
  | nil => simp at h
  | cons a as ih =>
    by_cases ha : p a
    · have h2 : as.dropWhile p ≠ [] := by rwa [List.dropWhile_cons_of_pos ha] at h
      rw [List.cons_append, List.dropWhile_cons_of_pos ha, List.dropWhile_cons_of_pos ha]
      exact ih h2
    · rw [List.cons_append, List.dropWhile_cons_of_neg ha,
          List.dropWhile_cons_of_neg ha, List.cons_append]

theorem takeWhile_append_all {α : Type} {p : α → Bool} {v : List α}
    (h : ∀ c ∈ v, p c = true) (w : List α) :
    (v ++ w).takeWhile p = v ++ w.takeWhile p := by
  induction v with
  | nil => rfl
  | cons a as ih =>
    have ha : p a = true := h a (by simp)
    rw [List.cons_append, List.takeWhile_cons_of_pos ha, List.cons_append,
        ih (fun c hc => h c (by simp [hc]))]

theorem takeWhile_append_stop {α : Type} {p : α → Bool} {v : List α}
    (h : v.dropWhile p ≠ []) (w : List α) :
    (v ++ w).takeWhile p = v.takeWhile p := by
  induction v with
  | nil => simp at h
  | cons a as ih =>
    by_cases ha : p a
    · rw [List.dropWhile_cons_of_pos ha] at h
      rw [List.cons_append, List.takeWhile_cons_of_pos ha, List.takeWhile_cons_of_pos ha,
          ih h]
    · rw [List.cons_append, List.takeWhile_cons_of_neg ha, List.takeWhile_cons_of_neg ha]

theorem dropWhile_all_neg {α : Type} {p : α → Bool} {v : List α}
    (h : ∀ c ∈ v, p c = false) : v.dropWhile p = v := by
  cases v with
  | nil => rfl
  | cons a as =>
    rw [List.dropWhile_cons_of_neg (by simp [h a (by simp)])]

theorem pysplitL_all_space {w : List Char} (h : ∀ c ∈ w, pyIsSpace c = true) :
    pysplitL w = [] := by
  induction w with
  | nil => simp only [pysplitL]
  | cons a as ih =>
    have : pysplitL (a :: as) = pysplitL as := by
      simp only [pysplitL]
      rw [if_pos (h a (by simp))]
    rw [this]
    exact ih (fun c hc => h c (by simp [hc]))

theorem pysplitL_dropWhile (l : List Char) :
    pysplitL (l.dropWhile pyIsSpace) = pysplitL l := by
  induction l with
  | nil => rfl
  | cons a as ih =>
    by_cases ha : pyIsSpace a
    · rw [List.dropWhile_cons_of_pos ha, ih]
      have : pysplitL (a :: as) = pysplitL as := by
        simp only [pysplitL]
        rw [if_pos ha]
      rw [this]
    · rw [List.dropWhile_cons_of_neg ha]

theorem takeWhile_all {α : Type} {p : α → Bool} {v : List α}
    (h : ∀ c ∈ v, p c = true) : v.takeWhile p = v :=
  List.takeWhile_eq_self_iff.mpr h

theorem pysplitL_append_space {w : List Char} (h : ∀ c ∈ w, pyIsSpace c = true) :
    ∀ m : List Char, pysplitL (m ++ w) = pysplitL m := by
  intro m
  induction m using pysplitL.induct with
  | case1 =>
    rw [List.nil_append, pysplitL_all_space h]
    simp only [pysplitL]
  | case2 c cs hc ih =>
    have l1 : pysplitL (c :: (cs ++ w)) = pysplitL (cs ++ w) := by
      simp only [pysplitL]; rw [if_pos hc]
    have l2 : pysplitL (c :: cs) = pysplitL cs := by
      simp only [pysplitL]; rw [if_pos hc]
    rw [List.cons_append, l1, l2, ih]
  | case3 c cs hc ih =>
    have e1 : pysplitL (c :: (cs ++ w)) =
        (c :: (cs ++ w).takeWhile (fun d => !pyIsSpace d)) ::
        pysplitL ((cs ++ w).dropWhile (fun d => !pyIsSpace d)) := by
      simp only [pysplitL]; rw [if_neg hc]
    have e2 : pysplitL (c :: cs) =
        (c :: cs.takeWhile (fun d => !pyIsSpace d)) ::
        pysplitL (cs.dropWhile (fun d => !pyIsSpace d)) := by
      simp only [pysplitL]; rw [if_neg hc]
    rw [List.cons_append, e1, e2]
    by_cases hd : cs.dropWhile (fun d => !pyIsSpace d) = []
    · have hall : ∀ d ∈ cs, (!pyIsSpace d) = true := List.dropWhile_eq_nil_iff.mp hd
      have htw : w.takeWhile (fun d => !pyIsSpace d) = [] := by
        cases w with
        | nil => rfl
        | cons b bs =>
          rw [List.takeWhile_cons_of_neg]
          simp [h b (by simp)]
      have hdww : w.dropWhile (fun d => !pyIsSpace d) = w := by
        cases w with
        | nil => rfl
        | cons b bs =>
          rw [List.dropWhile_cons_of_neg]
          simp [h b (by simp)]
      rw [takeWhile_append_all hall w, htw, List.append_nil,
          dropWhile_append_all hall w, hdww, hd, takeWhile_all hall,
          pysplitL_all_space h]
      simp only [pysplitL]
    · rw [takeWhile_append_stop hd w, dropWhile_append_stop hd w, ih]

theorem pysplitL_strip (l : List Char) : pysplitL (pystripL l) = pysplitL l := by
  unfold pystripL
  have hw : ∀ c ∈ ((l.dropWhile pyIsSpace).reverse.takeWhile pyIsSpace).reverse,
      pyIsSpace c = true := by
    intro c hc
    rw [List.mem_reverse] at hc
    exact List.mem_takeWhile_imp hc
  have hd2 : (l.dropWhile pyIsSpace) =
      ((l.dropWhile pyIsSpace).reverse.dropWhile pyIsSpace).reverse ++
      ((l.dropWhile pyIsSpace).reverse.takeWhile pyIsSpace).reverse := by
    have h1 := congrArg List.reverse
      (List.takeWhile_append_dropWhile pyIsSpace (l := (l.dropWhile pyIsSpace).reverse))
    rw [List.reverse_append, List.reverse_reverse] at h1
    exact h1.symm
  calc pysplitL ((l.dropWhile pyIsSpace).reverse.dropWhile pyIsSpace).reverse
      = pysplitL (((l.dropWhile pyIsSpace).reverse.dropWhile pyIsSpace).reverse ++
          ((l.dropWhile pyIsSpace).reverse.takeWhile pyIsSpace).reverse) :=
        (pysplitL_append_space hw _).symm
    _ = pysplitL (l.dropWhile pyIsSpace) := by rw [← hd2]
    _ = pysplitL l := pysplitL_dropWhile l

theorem pysplitL_token_shape (l : List Char) :
    ∀ t ∈ pysplitL l, t ≠ [] ∧ ∀ c ∈ t, pyIsSpace c = false := by
  induction l using pysplitL.induct with
  | case1 =>
    simp only [pysplitL]
    intro t ht
    simp at ht
  | case2 c cs hc ih =>
    have e : pysplitL (c :: cs) = pysplitL cs := by
      simp only [pysplitL]; rw [if_pos hc]
    rw [e]; exact ih
  | case3 c cs hc ih =>
    have e : pysplitL (c :: cs) =
        (c :: cs.takeWhile (fun d => !pyIsSpace d)) ::
        pysplitL (cs.dropWhile (fun d => !pyIsSpace d)) := by
      simp only [pysplitL]; rw [if_neg hc]
    rw [e]
    intro t ht
    rcases List.mem_cons.mp ht with h1 | h2
    · subst h1
      refine ⟨by simp, ?_⟩
      intro x hx
      rcases List.mem_cons.mp hx with rfl | hx2
      · simpa using hc
      · simpa using List.mem_takeWhile_imp hx2
    · exact ih t h2

theorem pystripL_of_token {t : List Char} (h : ∀ c ∈ t, pyIsSpace c = false) :
    pystripL t = t := by
  unfold pystripL
  rw [dropWhile_all_neg h,
      dropWhile_all_neg (fun c hc => h c (List.mem_reverse.mp hc)),
      List.reverse_reverse]

theorem pystripL_pad {w1 w2 : List Char} (v : List Char)
    (h1 : ∀ c ∈ w1, pyIsSpace c = true) (h2 : ∀ c ∈ w2, pyIsSpace c = true) :
    pystripL (w1 ++ v ++ w2) = pystripL v := by
  unfold pystripL
  rw [List.append_assoc, dropWhile_append_all h1]
  by_cases hd : v.dropWhile pyIsSpace = []
  · have hall : ∀ c ∈ v, pyIsSpace c = true := List.dropWhile_eq_nil_iff.mp hd
    have hvw : (v ++ w2).dropWhile pyIsSpace = [] := dropWhile_eq_nil_all (by
      intro c hc
      rcases List.mem_append.mp hc with h | h
      exacts [hall c h, h2 c h])
    rw [hvw, hd]
  · rw [dropWhile_append_stop hd w2, List.reverse_append,
        dropWhile_append_all (fun c hc => h2 c (List.mem_reverse.mp hc))]

theorem pysplit_strip (s : String) : pysplit (pystrip s) = pysplit s := by
  unfold pysplit pystrip
  rw [show (String.mk (pystripL s.data)).data = pystripL s.data from rfl, pysplitL_strip]

theorem pysplit_tokens_strip (s : String) : ∀ t ∈ pysplit s, pystrip t = t := by
  intro t ht
  unfold pysplit at ht
  rcases List.mem_map.mp ht with ⟨tl, htl, rfl⟩
  have hs := pysplitL_token_shape s.data tl htl
  unfold pystrip
  rw [show (String.mk tl).data = tl from rfl, pystripL_of_token hs.2]

/-! ## Helper lemmas on the urlparse embedding -/

theorem urlsplit_scheme {url d : String} {t : SplitResult}
    (h : pyUrlsplitE url d = .ok t) :
    t.scheme = (match schemeSplit url.data with
      | some p => String.mk p.1
      | none => d) := by
  unfold pyUrlsplitE at h
  cases hsc : schemeSplit url.data with
  | some p =>
    simp only [hsc] at h
    split at h <;> split at h <;>
      first
      | exact Except.noConfusion h
      | (rw [← Except.ok.inj h]; try rfl)
  | none =>
    simp only [hsc] at h
    split at h <;> split at h <;>
      first
      | exact Except.noConfusion h
      | (rw [← Except.ok.inj h]; try rfl)

theorem urlsplit_default_irrelevant {url : String} {t : SplitResult}
    (h : pyUrlsplitE url "" = .ok t) (hs : t.scheme ≠ "") (d : String) :
    pyUrlsplitE url d = .ok t := by
  have hd : schemeSplit url.data ≠ none := by
    intro hn
    have h2 := urlsplit_scheme h
    rw [hn] at h2
    exact hs h2
  obtain ⟨p, hp⟩ := Option.ne_none_iff_exists'.mp hd
  unfold pyUrlsplitE at h ⊢
  simp only [hp] at h ⊢
  exact h

theorem urlparse_of_urlsplit {url d : String} {t : SplitResult}
    (h : pyUrlsplitE url d = .ok t) :
    ∃ pr : ParseResult, pyUrlparseE url d = .ok pr ∧ pr.scheme = t.scheme ∧
      pr.netloc = t.netloc := by
  unfold pyUrlparseE
  simp only [h]
  split
  · exact ⟨_, rfl, rfl, rfl⟩
  · exact ⟨_, rfl, rfl, rfl⟩

theorem urlsplit_empty : pyUrlsplitE "" "" = .ok ⟨"", "", "", "", ""⟩ := rfl

theorem urljoin_returns_url {base url : String} {t : SplitResult} {b : ParseResult}
    (hsplit : pyUrlsplitE url "" = .ok t) (hs : t.scheme ≠ "")
    (hbp : pyUrlparseE base "" = .ok b)
    (hcond : t.scheme ≠ b.scheme ∨ t.scheme ∉ uses_relative) :
    pyUrljoinE base url = .ok url := by
  have hu0 : url ≠ "" := by
    intro h0
    subst h0
    rw [urlsplit_empty] at hsplit
    rw [← Except.ok.inj hsplit] at hs
    exact hs rfl
  unfold pyUrljoinE
  by_cases hb0 : base = ""
  · rw [if_pos hb0]
  · rw [if_neg hb0, if_neg hu0, hbp]
    obtain ⟨pr, hpr, hprs, hprn⟩ :=
      urlparse_of_urlsplit (urlsplit_default_irrelevant hsplit hs b.scheme)
    simp only [hpr]
    rw [if_pos (by rw [hprs]; exact hcond)]

/-! ## Congruence lemmas: each resolution function reads only some context
fields (base, version, the resolver functions, and the node's name for
diagnostics), so two contexts agreeing on those fields resolve identically. -/

theorem create_URIRef_congr {c1 c2 : ExecutionContext}
    (hn : c1.node.nodeName = c2.node.nodeName) :
    ∀ u check, create_URIRef c1 u check = create_URIRef c2 u check := by
  intro u check
  unfold create_URIRef
  rw [hn]

theorem join_congr {c1 c2 : ExecutionContext}
    (hn : c1.node.nodeName = c2.node.nodeName) :
    ∀ b v check, join c1 b v check = join c2 b v check := by
  intro b v check
  unfold join
  simp only [create_URIRef_congr hn]

theorem URIm_congr {c1 c2 : ExecutionContext}
    (hn : c1.node.nodeName = c2.node.nodeName) (hb : c1.base = c2.base) :
    ∀ v, c1.URIm v = c2.URIm v := by
  intro v
  unfold ExecutionContext.URIm
  simp only [hb, join_congr hn, create_URIRef_congr hn]

theorem CURIEorURIresolve_congr {c1 c2 : ExecutionContext}
    (hn : c1.node.nodeName = c2.node.nodeName) (hb : c1.base = c2.base)
    (hv : c1.rdfa_version = c2.rdfa_version)
    (hc : c1.curie_to_URI = c2.curie_to_URI) :
    ∀ v safe, c1.CURIEorURIresolve v safe = c2.CURIEorURIresolve v safe := by
  intro v safe
  unfold ExecutionContext.CURIEorURIresolve
  simp only [hb, hv, hc, hn, URIm_congr hn hb]

theorem CURIEorURIm_congr {c1 c2 : ExecutionContext}
    (hn : c1.node.nodeName = c2.node.nodeName) (hb : c1.base = c2.base)
    (hv : c1.rdfa_version = c2.rdfa_version)
    (hc : c1.curie_to_URI = c2.curie_to_URI) :
    ∀ v, c1.CURIEorURIm v = c2.CURIEorURIm v := by
  intro v
  unfold ExecutionContext.CURIEorURIm
  simp only [hb, hn, CURIEorURIresolve_congr hn hb hv hc]

theorem TERMorCURIEorAbsURIm_congr {c1 c2 : ExecutionContext}
    (hn : c1.node.nodeName = c2.node.nodeName)
    (hv : c1.rdfa_version = c2.rdfa_version)
    (hc : c1.curie_to_URI = c2.curie_to_URI)
    (ht : c1.term_to_URI = c2.term_to_URI) :
    ∀ v, c1.TERMorCURIEorAbsURIm v = c2.TERMorCURIEorAbsURIm v := by
  intro v
  unfold ExecutionContext.TERMorCURIEorAbsURIm
  simp only [hv, hc, ht, hn]

theorem apply_congr {c1 c2 : ExecutionContext}
    (hn : c1.node.nodeName = c2.node.nodeName) (hb : c1.base = c2.base)
    (hv : c1.rdfa_version = c2.rdfa_version)
    (hc : c1.curie_to_URI = c2.curie_to_URI)
    (ht : c1.term_to_URI = c2.term_to_URI) :
    ∀ (k : ResolverKind) v, k.apply c1 v = k.apply c2 v := by
  intro k v
  cases k <;>
    simp only [ResolverKind.apply, URIm_congr hn hb, CURIEorURIm_congr hn hb hv hc,
      TERMorCURIEorAbsURIm_congr hn hv hc ht]

theorem resolveTokens_congr {c1 c2 : ExecutionContext}
    (hn : c1.node.nodeName = c2.node.nodeName) (hb : c1.base = c2.base)
    (hv : c1.rdfa_version = c2.rdfa_version)
    (hc : c1.curie_to_URI = c2.curie_to_URI)
    (ht : c1.term_to_URI = c2.term_to_URI) (k : ResolverKind) :
    ∀ ts, resolveTokens c1 k ts = resolveTokens c2 k ts := by
  intro ts
  induction ts with
  | nil => rfl
  | cons v rest ih =>
    simp only [resolveTokens, apply_congr hn hb hv hc ht, ih]

theorem resolveTokens_eq_spec (ctx : ExecutionContext) (k : ResolverKind) :
    ∀ ts, (∀ t ∈ ts, pystrip t = t) →
      resolveTokens ctx k ts = resolveTokensSpec ctx k ts := by
  intro ts
  induction ts with
  | nil => intro _; rfl
  | cons v rest ih =>
    intro h
    have hv : pystrip v = v := h v (by simp)
    simp only [resolveTokens, resolveTokensSpec, hv,
      ih (fun t ht => h t (by simp [ht]))]

/-! ## Claim theorems -/

/-- C1: for every context whose version is at least "1.1", resolving a
bracket-delimited (safe-CURIE) value whose content the prefix resolver cannot
resolve returns absent and emits exactly one diagnostic, whose class is
UnresolvablePrefix; it never falls back to treating the unbracketed text as a
literal URI. -/
theorem curie_safe_unresolvable_11 (ctx : ExecutionContext) (v : String)
    (hver : pyStrGe ctx.rdfa_version "1.1" = true)
    (hres : ctx.curie_to_URI v = none) :
    ctx.CURIEorURIm ("[" ++ v ++ "]") =
      .ok (none, [Diag.err_no_CURIE_in_safe_CURIE v ctx.node.nodeName]) ∧
    Diag.warningClass (Diag.err_no_CURIE_in_safe_CURIE v ctx.node.nodeName) =
      "UnresolvablePrefix" := by
  refine ⟨?_, rfl⟩
  have hdata : ("[" ++ v ++ "]").data = ('[' :: v.data) ++ [']'] := rfl
  have h1 : ("[" ++ v ++ "]") ≠ "" := by
    intro h0
    have h2 := congrArg String.data h0
    rw [hdata] at h2
    simp at h2
  have h2 : ("[" ++ v ++ "]").data.head? = some '[' := by rw [hdata]; rfl
  have h3 : ("[" ++ v ++ "]").data.getLast? = some ']' := by
    rw [hdata, List.getLast?_concat]
  have h4 : ("[" ++ v ++ "]").data.dropLast.tail = v.data := by
    rw [hdata, List.dropLast_concat, List.tail_cons]
  unfold ExecutionContext.CURIEorURIm
  rw [if_neg h1, if_pos h2, if_neg (by rw [h3]; simp), h4,
      show String.mk v.data = v from rfl]
  unfold ExecutionContext.CURIEorURIresolve
  rw [if_pos hver, hres]
  rfl

/-- C6: joining the relative value "x?" in Resolve-as-URI against a context
whose base is "http://e.org/a/" yields "http://e.org/a/x?", with no
diagnostic: the trailing question mark that urljoin drops is restored. -/
theorem join_preserves_trailing_query (ctx : ExecutionContext)
    (hb : ctx.base = "http://e.org/a/") :
    ctx.URIm "x?" = .ok (.uri "http://e.org/a/x?", []) := by
  have e1 : pyUrlsplitE "http://e.org/a/" "" = .ok ⟨"http", "e.org", "/a/", "", ""⟩ := rfl
  have e2 : pyUrljoinE "http://e.org/a/" "x?" = .ok "http://e.org/a/x" := rfl
  have e3 : create_URIRef ctx ("http://e.org/a/x" ++ String.mk ['?']) true =
      .ok (.uri "http://e.org/a/x?", []) := by
    unfold create_URIRef
    rw [if_pos rfl,
        show pystrip ("http://e.org/a/x" ++ String.mk ['?']) = "http://e.org/a/x?" from rfl,
        show pyUrlsplitE "http://e.org/a/x?" "" = .ok ⟨"http", "e.org", "/a/x", "", ""⟩
          from rfl]
    exact if_pos (show ("http" : String) ∈ uri_schemes by decide)
  unfold ExecutionContext.URIm
  rw [if_neg (show ¬("x?" : String) = "" by decide), hb]
  simp only [e1]
  rw [if_neg (show ¬("http" : String) = "" by decide)]
  unfold join
  simp only [e2,
    show ("x?" : String).data.getLast? = some '?' from rfl,
    show ("http://e.org/a/x" : String).data.getLast? = some 'x' from rfl]
  rw [if_pos (show ('?' : Char) ≠ 'x' by decide)]
  simp only [e3]

/-- Witness for C6 at a concrete context. -/
theorem join_preserves_trailing_query_witness :
    (⟨.mk "div" [] [], "1.1", "http://e.org/a/", ⟨HostLanguage.xhtml⟩, none,
      none, fun _ => none, fun _ => none⟩ : ExecutionContext).URIm "x?" =
      .ok (.uri "http://e.org/a/x?", []) :=
  join_preserves_trailing_query
    ⟨.mk "div" [] [], "1.1", "http://e.org/a/", ⟨HostLanguage.xhtml⟩, none,
      none, fun _ => none, fun _ => none⟩ rfl

/-- Witness for C1 at a concrete context and the value "[undefined:x]". -/
theorem curie_safe_unresolvable_11_witness :
    (⟨.mk "div" [] [], "1.1", "http://e.org/", ⟨HostLanguage.xhtml⟩, none,
      none, fun _ => none, fun _ => none⟩ : ExecutionContext).CURIEorURIm
        "[undefined:x]" =
      .ok (none, [Diag.err_no_CURIE_in_safe_CURIE "undefined:x" "div"]) ∧
    Diag.warningClass (Diag.err_no_CURIE_in_safe_CURIE "undefined:x" "div") =
      "UnresolvablePrefix" :=
  curie_safe_unresolvable_11
    ⟨.mk "div" [] [], "1.1", "http://e.org/", ⟨HostLanguage.xhtml⟩, none,
      none, fun _ => none, fun _ => none⟩ "undefined:x" (by decide) rfl

/-- C2: for every context with version "1.0" (whose base parses, as the
constructor guarantees), the non-bracketed value "undefined:x" given to
Resolve-as-CURIE-or-URI is resolved as a plain URI whose scheme is
"undefined", emitting exactly the unusual-scheme warning (a generic warning,
not a CURIE error class), never a CURIE diagnostic. -/
theorem curie_10_nonbracketed_uri (ctx : ExecutionContext) (bt : SplitResult)
    (hver : ctx.rdfa_version = "1.0")
    (hb : pyUrlsplitE ctx.base "" = .ok bt) :
    ctx.CURIEorURIm "undefined:x" =
      .ok (some (.uri "undefined:x"),
           [Diag.err_URI_scheme "undefined:x" ctx.node.nodeName]) ∧
    (pyUrlsplitE "undefined:x" "").map SplitResult.scheme = .ok "undefined" ∧
    Diag.warningClass (Diag.err_URI_scheme "undefined:x" ctx.node.nodeName) = "" := by
  refine ⟨?_, rfl, rfl⟩
  have hcreate : create_URIRef ctx "undefined:x" true =
      .ok (.uri "undefined:x", [Diag.err_URI_scheme "undefined:x" ctx.node.nodeName]) := by
    unfold create_URIRef
    rw [if_pos rfl,
        show pystrip "undefined:x" = "undefined:x" from rfl,
        show pyUrlsplitE "undefined:x" "" = .ok ⟨"undefined", "", "x", "", ""⟩ from rfl]
    exact if_neg (show ¬("undefined" : String) ∈ uri_schemes by decide)
  have hURI : ctx.URIm "undefined:x" =
      .ok (.uri "undefined:x", [Diag.err_URI_scheme "undefined:x" ctx.node.nodeName]) := by
    unfold ExecutionContext.URIm
    rw [if_neg (show ¬("undefined:x" : String) = "" by decide)]
    simp only [hb]
    by_cases hsch : bt.scheme = ""
    · rw [if_pos hsch]
      simp only
        [show pyUrlsplitE "undefined:x" "" = .ok ⟨"undefined", "", "x", "", ""⟩ from rfl]
      rw [if_neg (show ¬("undefined" : String) = "" by decide)]
      exact hcreate
    · rw [if_neg hsch]
      unfold join
      obtain ⟨pr, hpr, hprs, hprn⟩ := urlparse_of_urlsplit hb
      have hj : pyUrljoinE ctx.base "undefined:x" = .ok "undefined:x" := by
        refine @urljoin_returns_url ctx.base "undefined:x"
          ⟨"undefined", "", "x", "", ""⟩ pr rfl (by decide) hpr ?_
        by_cases hx : pr.scheme = "undefined"
        · exact Or.inr (show ¬("undefined" : String) ∈ uses_relative by decide)
        · exact Or.inl (show ("undefined" : String) ≠ pr.scheme from
            fun h0 => hx h0.symm)
      simp only [hj,
        show ("undefined:x" : String).data.getLast? = some 'x' from rfl]
      rw [if_neg (show ¬('x' : Char) ≠ 'x' by decide)]
      exact hcreate
  unfold ExecutionContext.CURIEorURIm
  rw [if_neg (show ¬("undefined:x" : String) = "" by decide),
      if_neg (show ¬("undefined:x" : String).data.head? = some '[' by decide)]
  unfold ExecutionContext.CURIEorURIresolve
  rw [hver, if_neg (show ¬pyStrGe "1.0" "1.1" = true by decide)]
  simp only [Bool.false_eq_true, if_false, hURI]

/-- Witness for C2 at a concrete context. -/
theorem curie_10_nonbracketed_uri_witness :
    (⟨.mk "div" [] [], "1.0", "http://e.org/a/", ⟨HostLanguage.xhtml⟩, none,
      none, fun _ => none, fun _ => none⟩ : ExecutionContext).CURIEorURIm
        "undefined:x" =
      .ok (some (.uri "undefined:x"), [Diag.err_URI_scheme "undefined:x" "div"]) ∧
    (pyUrlsplitE "undefined:x" "").map SplitResult.scheme = .ok "undefined" ∧
    Diag.warningClass (Diag.err_URI_scheme "undefined:x" "div") = "" :=
  curie_10_nonbracketed_uri
    ⟨.mk "div" [] [], "1.0", "http://e.org/a/", ⟨HostLanguage.xhtml⟩, none,
      none, fun _ => none, fun _ => none⟩
    ⟨"http", "e.org", "/a/", "", ""⟩ rfl rfl

/-- C4 counterexample: "http:g" carries the recognized scheme "http", yet
Resolve-as-URI does not return it unchanged against base "http://e.org/a/":
Python 2's urljoin merges a same-scheme relative reference, so the result is
"http://e.org/a/g" (no diagnostic either way). -/
theorem uri_identity_cx :
    (pyUrlsplitE "http:g" "").map SplitResult.scheme = .ok "http" ∧
    ("http" : String) ∈ uri_schemes ∧
    (⟨.mk "div" [] [], "1.1", "http://e.org/a/", ⟨HostLanguage.xhtml⟩, none,
      none, fun _ => none, fun _ => none⟩ : ExecutionContext).URIm "http:g" =
      .ok (.uri "http://e.org/a/g", []) ∧
    ("http://e.org/a/g" : String) ≠ "http:g" :=
  ⟨rfl, by decide, rfl, by decide⟩

/-- C4 amended: Resolve-as-URI is the identity with no diagnostic on every
value that parses, is its own whitespace-strip, and carries a recognized,
non-empty scheme different from the scheme of the context's base (in
particular whenever the base is schemeless); the counterexample shows the
restriction to a scheme different from the base's is necessary, since Python
2's urljoin merges same-scheme relative references. -/
theorem uri_identity_amended (ctx : ExecutionContext) (s : String)
    (t bt : SplitResult)
    (hts : pyUrlsplitE s "" = .ok t)
    (hbs : pyUrlsplitE ctx.base "" = .ok bt)
    (hsch : t.scheme ≠ "")
    (hmem : t.scheme ∈ uri_schemes)
    (hdiff : t.scheme ≠ bt.scheme)
    (hstrip : pystrip s = s) :
    ctx.URIm s = .ok (.uri s, []) := by
  have hs0 : s ≠ "" := by
    intro h0
    subst h0
    rw [urlsplit_empty] at hts
    rw [← Except.ok.inj hts] at hsch
    exact hsch rfl
  have hcreate : create_URIRef ctx s true = .ok (.uri s, []) := by
    unfold create_URIRef
    rw [if_pos rfl, hstrip]
    simp only [hts]
    rw [if_pos hmem]
  unfold ExecutionContext.URIm
  rw [if_neg hs0]
  simp only [hbs]
  by_cases h2 : bt.scheme = ""
  · rw [if_pos h2]
    simp only [hts]
    rw [if_neg hsch]
    exact hcreate
  · rw [if_neg h2]
    unfold join
    obtain ⟨pr, hpr, hprs, hprn⟩ := urlparse_of_urlsplit hbs
    have hj : pyUrljoinE ctx.base s = .ok s :=
      urljoin_returns_url hts hsch hpr (Or.inl (by rw [hprs]; exact hdiff))
    simp only [hj]
    cases hgl : s.data.getLast? with
    | none =>
      exfalso
      apply hs0
      cases s with
      | mk d =>
        rw [show (String.mk d).data = d from rfl, List.getLast?_eq_none_iff] at hgl
        rw [hgl]
    | some lv =>
      exact (if_neg (show ¬lv ≠ lv from fun h0 => h0 rfl)).trans hcreate

/-- Witness for the amended C4: the scheme "mailto" differs from the base's
"http", so the value survives unchanged. -/
theorem uri_identity_amended_witness :
    (⟨.mk "div" [] [], "1.1", "http://e.org/a/", ⟨HostLanguage.xhtml⟩, none,
      none, fun _ => none, fun _ => none⟩ : ExecutionContext).URIm
        "mailto:a@b.org" = .ok (.uri "mailto:a@b.org", []) :=
  uri_identity_amended
    ⟨.mk "div" [] [], "1.1", "http://e.org/a/", ⟨HostLanguage.xhtml⟩, none,
      none, fun _ => none, fun _ => none⟩ "mailto:a@b.org"
    ⟨"mailto", "", "a@b.org", "", ""⟩ ⟨"http", "e.org", "/a/", "", ""⟩
    rfl rfl (by decide) (by decide) (by decide) rfl

/-- C5 (code bug evaluation): a root context built with the externally
supplied base override "http://e.org/d#frag" (host language rdfa_core, node
without xml:base) keeps the fragment in `base` — the constructor strips
fragments only from base values captured from a base element or attribute —
so Resolve-as-URI("") returns the base with its fragment still present,
although removing the fragment would change it. -/
theorem uri_empty_base_fragment_bug :
    ∃ ctx : ExecutionContext,
      ExecutionContext.mk_ (.mk "root" [] []) none "http://e.org/d#frag"
          (some ⟨HostLanguage.rdfa_core⟩) (some "1.1")
          (fun _ => none) (fun _ => none) = .ok (ctx, []) ∧
      ctx.base = "http://e.org/d#frag" ∧
      ctx.URIm "" = .ok (.uri "http://e.org/d#frag", []) ∧
      remove_frag_id ctx.base = "http://e.org/d" ∧
      ctx.base ≠ remove_frag_id ctx.base :=
  ⟨⟨.mk "root" [] [], "1.1", "http://e.org/d#frag", ⟨HostLanguage.rdfa_core⟩,
    none, none, fun _ => none, fun _ => none⟩, rfl, rfl, rfl, rfl, by decide⟩

/-- C3 counterexample: the attribute "data-extra" is absent from the static
attribute-to-resolution-kind table, yet requesting its resolution neither
fails nor emits a diagnostic — the try/except in getURI silently falls back
to the absolute-URI rule and resolves the value normally. -/
theorem getURI_unknown_attr_cx :
    resource_type_ "data-extra" = none ∧
    (⟨.mk "div" [("data-extra", "http://a.b/c")] [], "1.1", "http://e.org/",
      ⟨HostLanguage.xhtml⟩, none, none, fun _ => none, fun _ => none⟩ :
        ExecutionContext).getURI "data-extra" =
      .ok (.single (some (.uri "http://a.b/c")), []) :=
  ⟨rfl, rfl⟩

/-- C3 amended: requesting resolution of an attribute name absent from the
static table is not surfaced as a contract violation; getURI silently falls
back to the absolute-URI rule (`_URI`) and resolves the stripped value with
it, emitting no diagnostic about the missing table entry. -/
theorem getURI_unknown_attr_fallback (ctx : ExecutionContext) (attr : String)
    (h1 : resource_type_ attr = none)
    (h2 : ctx.node.hasAttribute attr = true) :
    ctx.getURI attr =
      (ctx.URIm (pystrip (ctx.node.getAttribute attr))).map
        (fun r => (.single (some r.1), r.2)) := by
  have h3 : attr ∉ ExecutionContext.listAttrs := by
    intro hm
    simp only [ExecutionContext.listAttrs, List.mem_cons,
      List.not_mem_nil, or_false] at hm
    rcases hm with rfl | rfl | rfl | rfl <;> simp [resource_type_] at h1
  unfold ExecutionContext.getURI
  rw [h2]
  rw [if_neg (by simp), if_neg h3]
  have h4 : kindOf attr = .kURI := by unfold kindOf; rw [h1]
  rw [h4]
  cases hu : ctx.URIm (pystrip (ctx.node.getAttribute attr)) with
  | error e => simp only [ResolverKind.apply, hu, Except.map]
  | ok r => simp only [ResolverKind.apply, hu, Except.map]

/-- Witness for the amended C3. -/
theorem getURI_unknown_attr_fallback_witness :
    (⟨.mk "div" [("data-extra", " http://a.b/c ")] [], "1.1", "http://e.org/",
      ⟨HostLanguage.xhtml⟩, none, none, fun _ => none, fun _ => none⟩ :
        ExecutionContext).getURI "data-extra" =
      ((⟨.mk "div" [("data-extra", " http://a.b/c ")] [], "1.1", "http://e.org/",
        ⟨HostLanguage.xhtml⟩, none, none, fun _ => none, fun _ => none⟩ :
          ExecutionContext).URIm
        (pystrip ((Node.mk "div" [("data-extra", " http://a.b/c ")] []).getAttribute
          "data-extra"))).map (fun r => (.single (some r.1), r.2)) :=
  getURI_unknown_attr_fallback
    ⟨.mk "div" [("data-extra", " http://a.b/c ")] [], "1.1", "http://e.org/",
      ⟨HostLanguage.xhtml⟩, none, none, fun _ => none, fun _ => none⟩
    "data-extra" rfl rfl

/-- C9: for every list-capable attribute, getURI returns the empty sequence
when the attribute is missing, and otherwise exactly the spec-side list
resolution (split the value on whitespace, resolve each token independently,
discard exactly the tokens that resolved to absence, order and duplicates
preserved, diagnostics in token order); for attributes outside the list set,
getURI returns the absent scalar when the attribute is missing. -/
theorem getURI_list_spec_refinement (ctx : ExecutionContext) (attr : String)
    (h : attr ∈ ExecutionContext.listAttrs) :
    (ctx.node.hasAttribute attr = false → ctx.getURI attr = .ok (.multiple [], [])) ∧
    (ctx.node.hasAttribute attr = true →
      ctx.getURI attr =
        (specListResolve ctx (kindOf attr) (ctx.node.getAttribute attr)).map
          (fun p => (.multiple p.1, p.2))) ∧
    (∀ a2, a2 ∉ ExecutionContext.listAttrs → ctx.node.hasAttribute a2 = false →
      ctx.getURI a2 = .ok (.single none, [])) := by
  refine ⟨?_, ?_, ?_⟩
  · intro hm
    unfold ExecutionContext.getURI
    rw [hm, if_pos rfl, if_pos h]
  · intro hm
    unfold ExecutionContext.getURI
    rw [hm, if_neg (by simp), if_pos h]
    have key : resolveTokens ctx (kindOf attr)
          (pysplit (pystrip (ctx.node.getAttribute attr))) =
        resolveTokensSpec ctx (kindOf attr) (pysplit (ctx.node.getAttribute attr)) := by
      rw [pysplit_strip]
      exact resolveTokens_eq_spec ctx (kindOf attr) _ (pysplit_tokens_strip _)
    rw [key]
    unfold specListResolve
    cases hr : resolveTokensSpec ctx (kindOf attr)
        (pysplit (ctx.node.getAttribute attr)) with
    | error e => simp only [Except.map]
    | ok prs => simp only [Except.map]
  · intro a2 hm2 hna
    unfold ExecutionContext.getURI
    rw [hna, if_pos rfl, if_neg hm2]

/-- Witness for C9: the list attribute "rel" on a node without it resolves to
the empty sequence. -/
theorem getURI_list_spec_refinement_witness :
    (⟨.mk "div" [] [], "1.1", "http://e.org/", ⟨HostLanguage.xhtml⟩, none,
      none, fun _ => none, fun _ => none⟩ : ExecutionContext).getURI "rel" =
      .ok (.multiple [], []) :=
  (getURI_list_spec_refinement
    ⟨.mk "div" [] [], "1.1", "http://e.org/", ⟨HostLanguage.xhtml⟩, none,
      none, fun _ => none, fun _ => none⟩ "rel" (by decide)).1 rfl

/-- C10: getURI resolves an attribute value only through its
whitespace-stripped form, so surrounding the value with whitespace (here on a
node carrying exactly that attribute) does not change the result, for any
attribute and any context parameters. -/
theorem getURI_strip_invariance
    (nm attr v w1 w2 : String) (cs : List Node)
    (ver base : String) (opts : Options) (lang dns : Option String)
    (c2u t2u : String → Option RDFNode)
    (hw1 : ∀ c ∈ w1.data, pyIsSpace c = true)
    (hw2 : ∀ c ∈ w2.data, pyIsSpace c = true) :
    ExecutionContext.getURI
      ⟨.mk nm [(attr, w1 ++ v ++ w2)] cs, ver, base, opts, lang, dns, c2u, t2u⟩ attr =
    ExecutionContext.getURI
      ⟨.mk nm [(attr, v)] cs, ver, base, opts, lang, dns, c2u, t2u⟩ attr := by
  have hstrip : pystrip (w1 ++ v ++ w2) = pystrip v := by
    unfold pystrip
    rw [show (w1 ++ v ++ w2).data = w1.data ++ v.data ++ w2.data from rfl,
        pystripL_pad v.data hw1 hw2]
  have hcong := @apply_congr
    ⟨.mk nm [(attr, w1 ++ v ++ w2)] cs, ver, base, opts, lang, dns, c2u, t2u⟩
    ⟨.mk nm [(attr, v)] cs, ver, base, opts, lang, dns, c2u, t2u⟩
    rfl rfl rfl rfl rfl
  have hcongT := @resolveTokens_congr
    ⟨.mk nm [(attr, w1 ++ v ++ w2)] cs, ver, base, opts, lang, dns, c2u, t2u⟩
    ⟨.mk nm [(attr, v)] cs, ver, base, opts, lang, dns, c2u, t2u⟩
    rfl rfl rfl rfl rfl
  have hlookup : ∀ x : String, (Node.mk nm [(attr, x)] cs).hasAttribute attr = true := by
    intro x
    simp [Node.hasAttribute, Node.attrs, List.lookup]
  have hget : ∀ x : String, (Node.mk nm [(attr, x)] cs).getAttribute attr = x := by
    intro x
    simp [Node.getAttribute, Node.attrs, List.lookup]
  unfold ExecutionContext.getURI
  simp only [hlookup, hget]
  by_cases hm : attr ∈ ExecutionContext.listAttrs
  · simp only [if_pos hm, hstrip, hcongT]
  · simp only [if_neg hm, hstrip, hcong]

/-- Witness for C10 at a concrete padded value. -/
theorem getURI_strip_invariance_witness :
    ExecutionContext.getURI
      ⟨.mk "div" [("about", " \t[x]  ")] [], "1.1", "http://e.org/",
        ⟨HostLanguage.xhtml⟩, none, none, fun _ => none, fun _ => none⟩ "about" =
    ExecutionContext.getURI
      ⟨.mk "div" [("about", "[x]")] [], "1.1", "http://e.org/",
        ⟨HostLanguage.xhtml⟩, none, none, fun _ => none, fun _ => none⟩ "about" :=
  getURI_strip_invariance "div" "about" "[x]" " \t" "  " [] "1.1" "http://e.org/"
    ⟨HostLanguage.xhtml⟩ none none (fun _ => none) (fun _ => none)
    (by decide) (by decide)

/-- C7: during child-context construction an explicitly empty language
override clears the inherited language to absent — for the dual-attribute
host languages via either the XML-namespaced or the generic attribute, and
for the xml-only host languages via xml:lang — whatever the parent's
language was; a non-empty override instead replaces the language. -/
theorem lang_empty_override_clears (p : ExecutionContext) (pb : SplitResult)
    (nm : String) (cs : List Node) (c2u t2u : String → Option RDFNode)
    (hb : pyUrlsplitE p.base "" = .ok pb) :
    (p.options.host_language = .xhtml →
      (ExecutionContext.mk_ (.mk nm [("xml:lang", "")] cs) (some p) "" none none
        c2u t2u).map (fun r => r.1.lang) = .ok none) ∧
    (p.options.host_language = .xhtml →
      (ExecutionContext.mk_ (.mk nm [("lang", "")] cs) (some p) "" none none
        c2u t2u).map (fun r => r.1.lang) = .ok none) ∧
    (p.options.host_language = .svg →
      (ExecutionContext.mk_ (.mk nm [("xml:lang", "")] cs) (some p) "" none none
        c2u t2u).map (fun r => r.1.lang) = .ok none) ∧
    (∀ x : String, p.options.host_language = .xhtml → (pylower x).length ≠ 0 →
      (ExecutionContext.mk_ (.mk nm [("xml:lang", x)] cs) (some p) "" none none
        c2u t2u).map (fun r => r.1.lang) = .ok (some (pylower x))) := by
  obtain ⟨np, vp, bp, ⟨hlp⟩, lp, dp, cp, tp⟩ := p
  simp only at hb
  refine ⟨?_, ?_, ?_, ?_⟩
  · intro hh
    simp only at hh
    subst hh
    simp [ExecutionContext.mk_, Node.hasAttribute, Node.getAttribute, Node.attrs,
      List.lookup, accept_xml_base, accept_xml_lang, hb, pylower, Except.map]
  · intro hh
    simp only at hh
    subst hh
    simp [ExecutionContext.mk_, Node.hasAttribute, Node.getAttribute, Node.attrs,
      List.lookup, accept_xml_base, accept_xml_lang, hb, pylower, Except.map]
  · intro hh
    simp only at hh
    subst hh
    simp [ExecutionContext.mk_, Node.hasAttribute, Node.getAttribute, Node.attrs,
      List.lookup, accept_xml_base, accept_xml_lang, hb, pylower, Except.map]
  · intro x hh hx
    simp only at hh
    subst hh
    simp [ExecutionContext.mk_, Node.hasAttribute, Node.getAttribute, Node.attrs,
      List.lookup, accept_xml_base, accept_xml_lang, hb, hx, Except.map]

/-- Witness for C7 at a concrete parent whose language is "en". -/
theorem lang_empty_override_clears_witness :
    (ExecutionContext.mk_ (.mk "p" [("xml:lang", "")] [])
      (some ⟨.mk "root" [] [], "1.1", "http://e.org/", ⟨HostLanguage.xhtml⟩,
        some "en", none, fun _ => none, fun _ => none⟩) "" none none
      (fun _ => none) (fun _ => none)).map (fun r => r.1.lang) = .ok none :=
  (lang_empty_override_clears
    ⟨.mk "root" [] [], "1.1", "http://e.org/", ⟨HostLanguage.xhtml⟩,
      some "en", none, fun _ => none, fun _ => none⟩
    ⟨"http", "e.org", "/", "", ""⟩ "p" [] (fun _ => none) (fun _ => none)
    rfl).1 rfl

/-- C8: on a node carrying both the generic and the XML-namespaced language
attributes, construction emits the mismatch diagnostic exactly when the
lower-cased values differ, and then exactly once; both values are still
resolved per the priority rule (the XML-namespaced one wins, an empty winner
clearing the language), non-fatally. -/
theorem lang_mismatch_diag (p : ExecutionContext) (pb : SplitResult)
    (nm a b : String) (cs : List Node) (c2u t2u : String → Option RDFNode)
    (hb : pyUrlsplitE p.base "" = .ok pb)
    (hh : p.options.host_language = .xhtml) :
    ∃ ctx : ExecutionContext,
      ExecutionContext.mk_ (.mk nm [("lang", a), ("xml:lang", b)] cs) (some p) ""
          none none c2u t2u =
        .ok (ctx, if pylower a ≠ pylower b
                  then [Diag.err_lang (pylower b) (pylower a) nm] else []) ∧
      ctx.lang = (if (pylower b).length ≠ 0 then some (pylower b) else none) := by
  obtain ⟨np, vp, bp, ⟨hlp⟩, lp, dp, cp, tp⟩ := p
  simp only at hb hh
  subst hh
  refine ⟨⟨.mk nm [("lang", a), ("xml:lang", b)] cs, vp, bp, ⟨HostLanguage.xhtml⟩,
    (if (pylower b).length ≠ 0 then some (pylower b) else none), dp, c2u, t2u⟩,
    ?_, rfl⟩
  simp [ExecutionContext.mk_, Node.hasAttribute, Node.getAttribute, Node.attrs,
    Node.nodeName, List.lookup, accept_xml_base, accept_xml_lang, hb, Except.map]

/-- Witness for C8 at the values "en" and "fr". -/
theorem lang_mismatch_diag_witness :
    ∃ ctx : ExecutionContext,
      ExecutionContext.mk_ (.mk "p" [("lang", "en"), ("xml:lang", "fr")] [])
          (some ⟨.mk "root" [] [], "1.1", "http://e.org/", ⟨HostLanguage.xhtml⟩,
            some "en", none, fun _ => none, fun _ => none⟩) "" none none
          (fun _ => none) (fun _ => none) =
        .ok (ctx, if pylower "en" ≠ pylower "fr"
                  then [Diag.err_lang (pylower "fr") (pylower "en") "p"] else []) ∧
      ctx.lang = (if (pylower "fr").length ≠ 0 then some (pylower "fr") else none) :=
  lang_mismatch_diag
    ⟨.mk "root" [] [], "1.1", "http://e.org/", ⟨HostLanguage.xhtml⟩,
      some "en", none, fun _ => none, fun _ => none⟩
    ⟨"http", "e.org", "/", "", ""⟩ "p" "en" "fr" [] (fun _ => none) (fun _ => none)
    rfl rfl
